import Mathlib

/-!
# Verification of the Code Assistance API core (`src/server`)

A shallow embedding, in Lean 4, of the cache / admission-control /
stream-tee pipeline of the code-assistance service:

* `generate_cache_key` (src/server/utils.py:109-111) — SHA-256 based key
  derivation, modelled with a full executable SHA-256 over `Nat` bytes;
* `get_cached` / `cache_result` / `cache_stream` (src/server/utils.py) —
  the cache gateway and the stream tee;
* `get_relevant_context` / `get_related_code` (src/server/utils.py) —
  context retrieval over the vector-search collaborator;
* `parse_review_result` (src/server/utils.py:194-244) — the review parser;
* `CodeGenerator.generate` / `CodeGenerator.stream` /
  `CodeGenerator._check_resources` (src/server/ollama_helper.py) — the
  generation admission controller, modelled as a lock transition system
  and as an event trace;
* the `/v1/review` endpoint `code_review` (src/server/main.py:222-256)
  together with the request schema `CodeReviewRequest`
  (src/server/schemas.py:13-16).

Machine integers are `Nat` with explicit `% 2^32` where overflow matters;
wall-clock quantities (`time.time()` differences, `asyncio.wait_for`
timeouts) are rationals; fallible Python code is embedded in `Except`.
-/

/-! ## SHA-256 (hashlib.sha256), executable over `Nat` bytes

`generate_cache_key` calls `hashlib.sha256(...).hexdigest()[:32]`.  We embed
SHA-256 (FIPS 180-4) directly: all words are `Nat` kept below `2^32` by
explicit reduction.  Rotations are expressed with division/multiplication on
disjoint bit ranges (so that every operation is a kernel-accelerated `Nat`
primitive). -/

namespace SHA256

/-- The word modulus `2^32`. -/
def w32 : Nat := 4294967296

/-- Addition modulo `2^32`. -/
def add32 (a b : Nat) : Nat := (a + b) % w32

/-- Bitwise complement within 32 bits: for `x < 2^32`, xor with all-ones. -/
def not32 (x : Nat) : Nat := x ^^^ (w32 - 1)

/-- Right rotation of a 32-bit word by `n` (for `0 < n < 32`): the low `n`
bits move to the top.  The two parts occupy disjoint bit ranges, so plain
addition equals bitwise or. -/
def rotr (x n : Nat) : Nat := (x >>> n) + ((x % (2 ^ n)) <<< (32 - n))

/-- The choice function `Ch(x,y,z) = (x ∧ y) ⊕ (¬x ∧ z)`. -/
def ch (x y z : Nat) : Nat := (x &&& y) ^^^ (not32 x &&& z)

/-- The majority function `Maj(x,y,z) = (x ∧ y) ⊕ (x ∧ z) ⊕ (y ∧ z)`. -/
def maj (x y z : Nat) : Nat := (x &&& y) ^^^ (x &&& z) ^^^ (y &&& z)

/-- The function `Σ0(x) = rotr 2 ⊕ rotr 13 ⊕ rotr 22`. -/
def bigSigma0 (x : Nat) : Nat := rotr x 2 ^^^ rotr x 13 ^^^ rotr x 22

/-- The function `Σ1(x) = rotr 6 ⊕ rotr 11 ⊕ rotr 25`. -/
def bigSigma1 (x : Nat) : Nat := rotr x 6 ^^^ rotr x 11 ^^^ rotr x 25

/-- The function `σ0(x) = rotr 7 ⊕ rotr 18 ⊕ shr 3`. -/
def smallSigma0 (x : Nat) : Nat := rotr x 7 ^^^ rotr x 18 ^^^ (x >>> 3)

/-- The function `σ1(x) = rotr 17 ⊕ rotr 19 ⊕ shr 10`. -/
def smallSigma1 (x : Nat) : Nat := rotr x 17 ^^^ rotr x 19 ^^^ (x >>> 10)

/-- The 64 round constants (fractional cube-root bits of the first 64
primes). -/
def K : List Nat :=
  [1116352408, 1899447441, 3049323471, 3921009573, 961987163, 1508970993,
   2453635748, 2870763221, 3624381080, 310598401, 607225278, 1426881987,
   1925078388, 2162078206, 2614888103, 3248222580, 3835390401, 4022224774,
   264347078, 604807628, 770255983, 1249150122, 1555081692, 1996064986,
   2554220882, 2821834349, 2952996808, 3210313671, 3336571891, 3584528711,
   113926993, 338241895, 666307205, 773529912, 1294757372, 1396182291,
   1695183700, 1986661051, 2177026350, 2456956037, 2730485921, 2820302411,
   3259730800, 3345764771, 3516065817, 3600352804, 4094571909, 275423344,
   430227734, 506948616, 659060556, 883997877, 958139571, 1322822218,
   1537002063, 1747873779, 1955562222, 2024104815, 2227730452, 2361852424,
   2428436474, 2756734187, 3204031479, 3329325298]

/-- The eight working variables of the compression function. -/
structure Hash8 where
  a : Nat
  b : Nat
  c : Nat
  d : Nat
  e : Nat
  f : Nat
  g : Nat
  h : Nat
deriving Repr, DecidableEq

/-- The initial hash value (fractional square-root bits of the first 8
primes). -/
def H0 : Hash8 :=
  ⟨1779033703, 3144134277, 1013904242, 2773480762, 1359893119, 2600822924,
   528734635, 1541459225⟩

/-- One compression round with round constant `kt` and schedule word `wt`. -/
def round (st : Hash8) (kt wt : Nat) : Hash8 :=
  let t1 := add32 st.h (add32 (bigSigma1 st.e)
    (add32 (ch st.e st.f st.g) (add32 kt wt)))
  let t2 := add32 (bigSigma0 st.a) (maj st.a st.b st.c)
  ⟨add32 t1 t2, st.a, st.b, st.c, add32 st.d t1, st.e, st.f, st.g⟩

/-- One step of message-schedule extension on the reversed schedule:
`w[t] = σ1(w[t-2]) + w[t-7] + σ0(w[t-15]) + w[t-16] (mod 2^32)`. -/
def schedStep (r : List Nat) : List Nat :=
  add32 (add32 (smallSigma1 (r.getD 1 0)) (r.getD 6 0))
    (add32 (smallSigma0 (r.getD 14 0)) (r.getD 15 0)) :: r

/-- Extend the 16 block words to the full 64-word schedule. -/
def schedule (ws : List Nat) : List Nat :=
  (schedStep^[48] ws.reverse).reverse

/-- Big-endian assembly of four bytes into a 32-bit word. -/
def toWords : List Nat → List Nat
  | b0 :: b1 :: b2 :: b3 :: rest =>
    (b0 * 16777216 + b1 * 65536 + b2 * 256 + b3) :: toWords rest
  | _ => []

/-- Compress one 64-byte block into the running hash. -/
def compress (st : Hash8) (block : List Nat) : Hash8 :=
  let ws := schedule (toWords block)
  let r := (K.zip ws).foldl (fun s p => round s p.1 p.2) st
  ⟨add32 st.a r.a, add32 st.b r.b, add32 st.c r.c, add32 st.d r.d,
   add32 st.e r.e, add32 st.f r.f, add32 st.g r.g, add32 st.h r.h⟩

/-- Split a byte list into 64-byte chunks (structural recursion on a fuel
argument so the kernel can evaluate it; `l.length` steps always suffice
because `drop 64` shortens any non-empty list). -/
def chunks64Go : Nat → List Nat → List (List Nat)
  | _, [] => []
  | 0, _ => []
  | fuel + 1, a :: rest =>
    (a :: rest).take 64 :: chunks64Go fuel ((a :: rest).drop 64)

/-- Split a byte list into 64-byte chunks. -/
def chunks64 (l : List Nat) : List (List Nat) := chunks64Go l.length l

/-- SHA-256 padding: append `0x80`, zero bytes to 56 mod 64, then the
64-bit big-endian bit length. -/
def pad (msg : List Nat) : List Nat :=
  let len := msg.length
  let zeros := (119 - len % 64) % 64
  let bitlen := 8 * len
  msg ++ 128 :: List.replicate zeros 0 ++
    [56, 48, 40, 32, 24, 16, 8, 0].map (fun s => (bitlen >>> s) % 256)

/-- The SHA-256 digest of a byte sequence, as the final eight words. -/
def sha256 (msg : List Nat) : Hash8 :=
  (chunks64 (pad msg)).foldl compress H0

/-- The 16 lowercase hex digits, as used by `hexdigest`. -/
def hexAlphabet : List Char := "0123456789abcdef".data

/-- The hex character of a nibble. -/
def nibbleChar (n : Nat) : Char := hexAlphabet.getD (n % 16) '0'

/-- The eight hex characters of one 32-bit word, zero-padded, most
significant nibble first. -/
def wordHexChars (x : Nat) : List Char :=
  [28, 24, 20, 16, 12, 8, 4, 0].map (fun s => nibbleChar (x >>> s))

/-- Python `hexdigest()`: the 64 hex characters of the digest. -/
def digestHexChars (st : Hash8) : List Char :=
  wordHexChars st.a ++ wordHexChars st.b ++ wordHexChars st.c ++
  wordHexChars st.d ++ wordHexChars st.e ++ wordHexChars st.f ++
  wordHexChars st.g ++ wordHexChars st.h

/-- UTF-8 encoding of one unicode scalar value (`str.encode()` per
character). -/
def utf8Char (c : Char) : List Nat :=
  let n := c.toNat
  if n < 128 then [n]
  else if n < 2048 then [192 + n / 64, 128 + n % 64]
  else if n < 65536 then [224 + n / 4096, 128 + (n / 64) % 64, 128 + n % 64]
  else [240 + n / 262144, 128 + (n / 4096) % 64, 128 + (n / 64) % 64,
        128 + n % 64]

/-- Python `str.encode()`: UTF-8 bytes of a string. -/
def utf8Bytes (s : String) : List Nat := (s.data.map utf8Char).flatten

end SHA256

/-! ## Cache Key Deriver (src/server/utils.py:109-111)

```python
def generate_cache_key(*args) -> str:
    return hashlib.sha256("".join(str(arg) for arg in args).encode()).hexdigest()[:32]
```
-/

/-- The value of `hashlib.sha256(s.encode()).hexdigest()[:32]` — the key derived from an
already-joined string. -/
def keyOfString (s : String) : String :=
  String.mk ((SHA256.digestHexChars (SHA256.sha256 (SHA256.utf8Bytes s))).take 32)

/-- Python `generate_cache_key(*args)` (src/server/utils.py:109-111): the
arguments (strings, in every call site) are concatenated with no
separator, hashed with SHA-256, and the hex digest truncated to its first
32 characters. -/
def generate_cache_key (args : List String) : String :=
  keyOfString (String.join args)

/-! ## Cache Gateway (src/server/utils.py:114-135)

```python
async def get_cached(cache: redis.Redis, key: str) -> Optional[str]:
    try:
        result = await asyncio.wait_for(asyncio.to_thread(cache.get, key), timeout=0.01)
        if result:
            return result.decode('utf-8')
        return None
    except (redis.TimeoutError, asyncio.TimeoutError):
        return None
```

The underlying store is an external collaborator; one `get` against it is
modelled by a behaviour: how long the call takes (seconds, as a rational)
and whether it returns a value (`none` = key absent) or raises.  Only
`redis.TimeoutError` and `asyncio.TimeoutError` are caught; any other
`redis` exception (for instance `redis.ConnectionError` when the store is
unreachable) propagates to the caller. -/

/-- The exception kinds a `redis` call can raise. -/
inductive RedisExc
  | timeout
  | connection
  | otherError
deriving DecidableEq, Repr

/-- One observed behaviour of `cache.get(key)`: its latency in seconds and
its outcome (a value, `none` for an absent key, or an exception). -/
structure StoreBeh where
  latency : ℚ
  resp : Except RedisExc (Option String)

/-- Function `get_cached` (src/server/utils.py:114-125).  `asyncio.wait_for`
cancels the call once `0.01` seconds elapse, raising
`asyncio.TimeoutError`, which the function catches and maps to `None`; a
`redis.TimeoutError` raised by the store within the bound is caught the
same way; an empty byte string is falsy so it also returns `None`; any
other exception raised within the bound propagates. -/
def get_cached (b : StoreBeh) : Except RedisExc (Option String) :=
  if (1 : ℚ)/100 ≤ b.latency then .ok none
  else
    match b.resp with
    | .ok (some s) => .ok (if s = "" then none else some s)
    | .ok none => .ok none
    | .error .timeout => .ok none
    | .error e => .error e

/-! ## Cache writes and the Stream Tee (src/server/utils.py:128-135, 247-259)

```python
async def cache_result(cache: redis.Redis, key: str, value: Any, ttl: int = 3600):
    mem_info = psutil.virtual_memory()
    if mem_info.available > 10 * 1024 ** 3:  # 10GB free
        ...
        await asyncio.to_thread(cache.setex, key, ttl, value)

async def cache_stream(cache, key, generator):
    collected = []
    for chunk in generator:
        collected.append(chunk)
        yield chunk
    full_response = "".join(collected)
    if full_response:
        await cache_result(cache, key, full_response)
```

The store contents are an association list (`setex` overwrites, modelled
by consing with first-match lookup); `mem_info.available` at write time is
a parameter.  A source fragment stream is a finite list of fragments plus
a flag saying whether the source raises after yielding them; when it
raises, the `for` loop re-raises out of `cache_stream` after the already
collected fragments were forwarded, so the join/write lines never run. -/

/-- Cache store contents: newest binding first. -/
abbrev CacheMap := List (String × String)

/-- Lookup in the store (first match wins, so a later `setex` of the same
key shadows the earlier one). -/
def CacheMap.lookup (m : CacheMap) (k : String) : Option String :=
  (m.find? (fun p => p.1 == k)).map (·.2)

/-- One observable cache-write event (`cache.setex key ttl value`). -/
inductive TeeEv
  | write (k v : String)
deriving DecidableEq, Repr

/-- Function `cache_result` (src/server/utils.py:128-135) for a string value: the
write happens only when the host has more than `10 * 1024 ** 3` bytes of
memory available; otherwise it is silently skipped.  (The `json.dumps`
branch for dict/list values is dead here: every caller in the core passes
a string.)  Returns the new store contents and the write events
performed. -/
def cache_result (memAvailable : Nat) (m : CacheMap) (key value : String) :
    CacheMap × List TeeEv :=
  if memAvailable > 10 * 1024 ^ 3 then ((key, value) :: m, [.write key value])
  else (m, [])

/-- A source fragment stream: the fragments it yields, in order, and
whether it raises after yielding them (instead of completing normally). -/
structure FragStream where
  frags : List String
  fails : Bool
deriving DecidableEq, Repr

/-- The observable outcome of running `cache_stream` to exhaustion:
the fragments forwarded to the caller in order, whether the tee finished
without the source raising, the write events (these all happen after the
last fragment was forwarded — the write is after the `for` loop), and the
final store contents. -/
structure TeeRun where
  forwarded : List String
  completed : Bool
  writes : List TeeEv
  store : CacheMap
deriving DecidableEq, Repr

/-- Function `cache_stream` (src/server/utils.py:247-259

): every chunk of the source is appended to `collected` and forwarded; if
the source raises, the exception propagates after the forwarded prefix and
nothing below the loop runs; on normal completion the joined accumulator
is written through `cache_result` only if it is non-empty (`if
full_response:`). -/
def cache_stream (memAvailable : Nat) (store : CacheMap) (key : String)
    (src : FragStream) : TeeRun :=
  if src.fails then ⟨src.frags, false, [], store⟩
  else
    let full_response := String.join src.frags
    if full_response ≠ "" then
      let r := cache_result memAvailable store key full_response
      ⟨src.frags, true, r.2, r.1⟩
    else ⟨src.frags, true, [], store⟩

/-! ## Context Retriever (src/server/utils.py:157-191)

```python
async def get_relevant_context(vector_store, prompt: str) -> str:
    try:
        results = await asyncio.to_thread(vector_store.search, query=prompt, k=3)
        context = "\n".join([doc['content'] for doc in results])
        return context[:8000]
    except Exception as e:
        logger.error(...)
        return ""

async def get_related_code(vector_store, code: str, context_files: List[str]) -> str:
    results = []
    for file in context_files:
        file_results = await asyncio.to_thread(
            vector_store.search, query=code, k=1, file_filter=file)
        results.extend(file_results)
    return "\n\n".join([doc['content'] for doc in results])
```
-/

/-- The Python exception kinds relevant to the endpoint logic. -/
inductive PyErr
  | attributeError
  | typeError
  | overloadError
  | searchError
deriving DecidableEq, Repr

/-- A document returned by `CodeVectorStore.search`
(src/server/faiss_index.py:68-96): content, source path, and distance
score (lower = more similar). -/
structure RDoc where
  content : String
  path : String
  score : ℚ
deriving DecidableEq, Repr

/-- The vector-search collaborator: `search(query, k, file_filter)`
returns ranked documents or raises. -/
def VectorStore : Type :=
  String → Nat → Option String → Except PyErr (List RDoc)

/-- Function `get_relevant_context` (src/server/utils.py:157-175): top-3 search,
contents joined with `"\n"`, sliced to the first 8000 characters
(`context[:8000]`, by code points); any exception is swallowed and the
empty string returned. -/
def get_relevant_context (vs : VectorStore) (prompt : String) : String :=
  match vs prompt 3 none with
  | .ok results =>
    String.mk ((String.intercalate "\n" (results.map (·.content))).data.take 8000)
  | .error _ => ""

/-- Function `get_related_code` (src/server/utils.py:178-191): one `k = 1`,
path-filtered search per context file, results accumulated in order;
contents joined with `"\n\n"`.  There is no `try`, no truncation: a
search failure propagates to the caller. -/
def get_related_code (vs : VectorStore) (code : String)
    (context_files : List String) : Except PyErr String := do
  let results ← context_files.foldlM (fun acc file => do
    let file_results ← vs code 1 (some file)
    pure (acc ++ file_results)) ([] : List RDoc)
  pure (String.intercalate "\n\n" (results.map (·.content)))

/-! ## Generation Admission Controller, timing view
(src/server/ollama_helper.py:53-85)

```python
def generate(self, prompt, **kwargs):
    with self.lock:
        return self._generate(prompt, **kwargs)

def _check_resources(self):
    mem = psutil.virtual_memory()
    if mem.percent > 90:
        raise ModelOverloadError("Memory usage too high")
    if time.time() - self.last_used < 0.1:
        time.sleep(0.1)  # Rate limiting

def _generate(self, prompt, max_tokens=256, **kwargs):
    self._check_resources()
    ... self.client.generate(...) ...
```

One `generate` call is modelled as the ordered trace of its externally
visible actions, parameterized by the sampled memory percentage and the
elapsed time `time.time() - self.last_used` (seconds, rationals).  Note
`time.sleep(0.1)` sleeps the full `0.1` seconds, not the remainder
`0.1 - elapsed`. -/

/-- The observable actions of one `generate` call. -/
inductive GenAct
  | acquire
  | sleep (d : ℚ)
  | invokeBackend
  | release
deriving DecidableEq, Repr

/-- Method `_check_resources` (src/server/ollama_helper.py:79-85): raises on
memory pressure above 90 percent, otherwise sleeps a fixed `0.1` seconds
when the elapsed time since `last_used` is below `0.1`. -/
def check_resources (memPercent elapsed : ℚ) : Except Unit (List GenAct) :=
  if memPercent > 90 then .error ()
  else if elapsed < (1 : ℚ)/10 then .ok [.sleep ((1 : ℚ)/10)]
  else .ok []

/-- The action trace of `CodeGenerator.generate`
(src/server/ollama_helper.py:53-64): the lock is acquired, then
`_check_resources` runs (so its sleep happens while the lock is held),
then the backend is invoked, then the lock is released.  On an overload
the exception propagates (the `with` statement still releases the
lock). -/
def generateTrace (memPercent elapsed : ℚ) : Except Unit (List GenAct) :=
  match check_resources memPercent elapsed with
  | .error e => .error e
  | .ok acts => .ok ([GenAct.acquire] ++ acts ++ [GenAct.invokeBackend, GenAct.release])

/-! ## Review Result Parser (src/server/utils.py:194-244)

String primitives are embedded at the character-list level so that every
step matches CPython' s behaviour on the inputs at hand and reduces in the
kernel: `str.split` on a one-character separator, `str.strip` over ASCII
whitespace, `str.startswith`, `str.lower` (the inputs are ASCII),
and `int()` (optional sign, decimal digits). -/

/-- The characters `str.strip()` removes (ASCII whitespace). -/
def pyWsChars : List Char := [' ', '\t', '\n', '\r', '\x0b', '\x0c']

/-- Python `s.strip()` on a character list. -/
def pyStripL (l : List Char) : List Char :=
  ((l.dropWhile (pyWsChars.contains ·)).reverse.dropWhile
    (pyWsChars.contains ·)).reverse

/-- Python `s.split(c)` for a single-character separator: all fields, empty
fields preserved; the empty string splits to `[""]`. -/
def splitOnChar (c : Char) : List Char → List (List Char)
  | [] => [[]]
  | a :: rest =>
    match splitOnChar c rest with
    | [] => [[]]
    | h :: t => if a = c then [] :: h :: t else (a :: h) :: t

/-- Rejoin fields with the separator (used to express `s.split(c, 1)[1]`,
everything after the first separator). -/
def joinOnChar (c : Char) : List (List Char) → List Char
  | [] => []
  | [x] => x
  | x :: y :: t => x ++ c :: joinOnChar c (y :: t)

/-- Python `s.split(':', 1)[1]`: everything after the first colon (callers are
guarded by a `startswith` check that guarantees a colon exists). -/
def afterFirstColon (l : List Char) : List Char :=
  joinOnChar ':' ((splitOnChar ':' l).drop 1)

/-- Decimal value of a digit run. -/
def digitsVal (ds : List Char) : Nat :=
  ds.foldl (fun a c => a * 10 + (c.toNat - 48)) 0

/-- Python `int(s)` on the inputs at hand: strips whitespace, accepts an
optional sign followed by one or more ASCII decimal digits, otherwise
raises (here: `none`). -/
def pyIntL (l : List Char) : Option Int :=
  match pyStripL l with
  | [] => none
  | '+' :: ds =>
    if !ds.isEmpty && ds.all (·.isDigit) then some (digitsVal ds) else none
  | '-' :: ds =>
    if !ds.isEmpty && ds.all (·.isDigit) then some (-(digitsVal ds : Int))
    else none
  | ds => if ds.all (·.isDigit) then some (digitsVal ds) else none

/-- The issue dictionary being accumulated: the parser only ever writes
these five keys, so a partial dict is five optional fields. -/
structure PIssue where
  line_start : Option Int := none
  line_end : Option Int := none
  severity : Option String := none
  type : Option String := none
  description : Option String := none
deriving DecidableEq, Repr

/-- Python truthiness of the dict (`if current_issue`): some key is
present. -/
def PIssue.nonempty (i : PIssue) : Bool :=
  i.line_start.isSome || i.line_end.isSome || i.severity.isSome ||
  i.type.isSome || i.description.isSome

/-- Python `all(k in issue for k in [...])`: the five required fields are
present. -/
def PIssue.complete (i : PIssue) : Bool :=
  i.line_start.isSome && i.line_end.isSome && i.severity.isSome &&
  i.type.isSome && i.description.isSome

/-- Literal `"- line_start:"` as characters. -/
def lineStartLit : List Char := "- line_start:".data

/-- Literal `"- line_end:"` as characters. -/
def lineEndLit : List Char := "- line_end:".data

/-- Literal `"- severity:"` as characters. -/
def severityLit : List Char := "- severity:".data

/-- Literal `"- type:"` as characters. -/
def typeLit : List Char := "- type:".data

/-- Literal `"- description:"` as characters. -/
def descriptionLit : List Char := "- description:".data

/-- Python `line.split(':')[1]` (guarded by `startswith`, so index 1 exists). -/
def colonSeg1 (line : List Char) : List Char :=
  (splitOnChar ':' line).getD 1 []

/-- The body of the parser' s `for line in lines` loop
(src/server/utils.py:203-230), acting on `(issues, current_issue)`:
strip; skip empty lines; on a `- line_start:` line, flush the current
issue *only if it already has a `line_start` key* (`if current_issue and
'line_start' in current_issue`) and then set `line_start` (default 0 on an
unparsable value); on `- line_end:` set `line_end` (default: the current
issue' s `line_start`, or 0); severity and type are lower-cased; the
description keeps everything after the first colon; any other line is
ignored. -/
def processLine (st : List PIssue × PIssue) (raw : List Char) :
    List PIssue × PIssue :=
  let line := pyStripL raw
  if line = [] then st
  else if lineStartLit.isPrefixOf line then
    let st1 :=
      if st.2.nonempty && st.2.line_start.isSome then
        (st.1 ++ [st.2], ({} : PIssue))
      else st
    (st1.1,
     { st1.2 with line_start := some ((pyIntL (pyStripL (colonSeg1 line))).getD 0) })
  else if lineEndLit.isPrefixOf line then
    let v := some ((pyIntL (pyStripL (colonSeg1 line))).getD (st.2.line_start.getD 0))
    (st.1, { st.2 with line_end := v })
  else if severityLit.isPrefixOf line then
    let v := some (String.mk ((pyStripL (colonSeg1 line)).map Char.toLower))
    (st.1, { st.2 with severity := v })
  else if typeLit.isPrefixOf line then
    let v := some (String.mk ((pyStripL (colonSeg1 line)).map Char.toLower))
    (st.1, { st.2 with type := v })
  else if descriptionLit.isPrefixOf line then
    let v := some (String.mk (pyStripL (afterFirstColon line)))
    (st.1, { st.2 with description := v })
  else st

/-- Function `parse_review_result` (src/server/utils.py:194-244): split into
lines, run the loop, flush the trailing issue if it has a `line_start`,
then keep only the issues with all five required fields. -/
def parse_review_result (result : String) : List PIssue :=
  let st := (splitOnChar '\n' result.data).foldl processLine ([], {})
  let issues :=
    if st.2.nonempty && st.2.line_start.isSome then st.1 ++ [st.2] else st.1
  issues.filter (·.complete)

/-- The loop body as the spec sentence describes it — "a new `line_start`
line always starts a new issue, flushing the previous one": on a
`- line_start:` line the previous issue is flushed whenever the dict is
non-empty, and the new issue starts fresh.  Stated only to be compared
with `processLine`, which is translated from the code; all other branches
are identical. -/
def processLineClaimed (st : List PIssue × PIssue) (raw : List Char) :
    List PIssue × PIssue :=
  let line := pyStripL raw
  if line = [] then st
  else if lineStartLit.isPrefixOf line then
    let st1 := if st.2.nonempty then (st.1 ++ [st.2], ({} : PIssue)) else st
    (st1.1,
     { st1.2 with line_start := some ((pyIntL (pyStripL (colonSeg1 line))).getD 0) })
  else if lineEndLit.isPrefixOf line then
    let v := some ((pyIntL (pyStripL (colonSeg1 line))).getD (st.2.line_start.getD 0))
    (st.1, { st.2 with line_end := v })
  else if severityLit.isPrefixOf line then
    let v := some (String.mk ((pyStripL (colonSeg1 line)).map Char.toLower))
    (st.1, { st.2 with severity := v })
  else if typeLit.isPrefixOf line then
    let v := some (String.mk ((pyStripL (colonSeg1 line)).map Char.toLower))
    (st.1, { st.2 with type := v })
  else if descriptionLit.isPrefixOf line then
    let v := some (String.mk (pyStripL (afterFirstColon line)))
    (st.1, { st.2 with description := v })
  else st

/-- The parser as the claim states it: same pipeline, with the
always-flush loop body.  Compared against `parse_review_result` below. -/
def parse_review_result_claimed (result : String) : List PIssue :=
  let st := (splitOnChar '\n' result.data).foldl processLineClaimed ([], {})
  let issues :=
    if st.2.nonempty && st.2.line_start.isSome then st.1 ++ [st.2] else st.1
  issues.filter (·.complete)

/-! ## Generation Admission Controller, interleaving view
(src/server/ollama_helper.py:29-77)

```python
class CodeGenerator:
    def __init__(self, ...):
        self.lock = Lock()
        ...
    def generate(self, prompt, **kwargs):
        with self.lock:
            return self._generate(prompt, **kwargs)
    def stream(self, prompt, **kwargs):
        with self.lock:
            for chunk in self._stream(prompt, **kwargs):
                yield chunk
```

N concurrent callers against one controller instance are modelled as a
transition system.  Each caller thread runs, in order: acquire the lock
(blocking while it is held — `threading.Lock.acquire` waits, it never
rejects), enter the backend, yield its fragments (`stream` holds the lock
across the whole session; a plain `generate` is the `fragsLeft = 0`
case), leave the backend, release the lock.  A scheduler is an arbitrary
list of thread ids; a thread scheduled when its next action is blocked
simply does not move. -/

namespace Admission

/-- One caller thread: its program counter (0 = waiting for the lock, 1 =
lock held / about to enter the backend, 2 = inside the backend session,
3 = backend done / about to release, 4 = finished) and how many stream
fragments it has still to yield while inside the backend. -/
structure TState where
  pc : Nat
  fragsLeft : Nat
deriving DecidableEq, Repr

/-- The whole system: the lock owner (`none` = free) and the threads. -/
structure Sys where
  lock : Option Nat
  threads : List TState
deriving DecidableEq, Repr

/-- The observable backend events: entering the backend, yielding one
fragment inside the session, leaving the backend. -/
inductive BEv
  | enter (t : Nat)
  | yieldFrag (t : Nat)
  | leave (t : Nat)
deriving DecidableEq, Repr

/-- One scheduler step giving thread `t` a chance to act.  Acquiring
requires the lock to be free; a blocked thread stays exactly where it is
(it waits, it is not rejected). -/
def step (s : Sys) (t : Nat) : Sys × Option BEv :=
  match (s.threads[t]? : Option TState) with
  | none => (s, none)
  | some th =>
    if th.pc = 0 then
      match s.lock with
      | none => (⟨some t, s.threads.set t ⟨1, th.fragsLeft⟩⟩, none)
      | some _ => (s, none)
    else if th.pc = 1 then
      (⟨s.lock, s.threads.set t ⟨2, th.fragsLeft⟩⟩, some (.enter t))
    else if th.pc = 2 then
      match th.fragsLeft with
      | 0 => (⟨s.lock, s.threads.set t ⟨3, 0⟩⟩, some (.leave t))
      | r + 1 => (⟨s.lock, s.threads.set t ⟨2, r⟩⟩, some (.yieldFrag t))
    else if th.pc = 3 then
      (⟨none, s.threads.set t ⟨4, th.fragsLeft⟩⟩, none)
    else (s, none)

/-- Run a schedule, collecting the emitted backend events in order. -/
def run (s : Sys) : List Nat → Sys × List BEv
  | [] => (s, [])
  | t :: rest =>
    let p := step s t
    let q := run p.1 rest
    (q.1, p.2.toList ++ q.2)

/-- N concurrent calls: one thread per entry of `frs`; entry `k` is a
`stream` call that will yield `k` fragments (`k = 0` models a plain
`generate`).  All start waiting for the free lock. -/
def init (frs : List Nat) : Sys :=
  ⟨none, frs.map (fun k => ⟨0, k⟩)⟩

/-- Serialization check on an event list, scanning with a busy flag:
every `enter` must find the backend idle, and every fragment yield and
every `leave` must find it busy.  `chk false evs = true` says backend
sessions never overlap: between any two `enter`s there is a `leave`. -/
def chk : Bool → List BEv → Bool
  | _, [] => true
  | b, .enter _ :: r => !b && chk true r
  | b, .yieldFrag _ :: r => b && chk b r
  | b, .leave _ :: r => b && chk false r

/-- The lock invariant: any thread that is past acquisition and has not
yet released (pc 1, 2 or 3) owns the lock. -/
def Inv (s : Sys) : Prop :=
  ∀ (t : Nat) (th : TState),
    s.threads[t]? = some th → 1 ≤ th.pc → th.pc ≤ 3 → s.lock = some t

/-- Some thread is inside the backend session. -/
def InBackend (s : Sys) : Prop :=
  ∃ (t : Nat) (th : TState), s.threads[t]? = some th ∧ th.pc = 2

end Admission

/-! ## The `/v1/review` endpoint (src/server/main.py:222-256) and its
request schema (src/server/schemas.py:13-16)

```python
class CodeReviewRequest(BaseModel):
    code: str
    lang: Optional[str] = "python"
    strict_mode: Optional[bool] = False

@app.post("/v1/review", response_model=CodeReviewResponse)
async def code_review(request: CodeReviewRequest):
    similar_code_results = await asyncio.to_thread(
        app.state.vector_store.search,
        query=request.code, k=3,
        file_filter=os.path.dirname(request.file_path) if request.file_path else None)
    relevant_issues = []
    for doc in similar_code_results:
        if doc['score'] < 0.3:
            review_prompt = build_review_prompt(doc['content'], request.lang)
            cached_review = await get_cached(app.state.cache, generate_cache_key(review_prompt))
            if cached_review:
                relevant_issues.extend(cached_review['issues'])
    if relevant_issues:
        return {"issues": relevant_issues, "source": "existing_code"}
    review_prompt = build_review_prompt(request.code, request.lang)
    result = await asyncio.to_thread(app.state.generator.generate, review_prompt, max_tokens=512)
    issues = parse_review_result(result)
    return {"issues": issues, "source": "generated"}
```

`CodeReviewRequest` has no `file_path` field, and a pydantic model raises
`AttributeError` on access to an attribute that is not one of its fields;
the embedding makes attribute access on the request explicit.  Further,
`get_cached` returns `Optional[str]`, and subscripting a `str` with the
string key `'issues'` raises `TypeError` in CPython ("string indices must
be integers"). -/

/-- Schema `CodeReviewRequest` (src/server/schemas.py:13-16): exactly the fields
`code`, `lang`, `strict_mode`. -/
structure CodeReviewRequest where
  code : String
  lang : String
  strict_mode : Bool
deriving DecidableEq, Repr

/-- A Python value as far as this endpoint needs one. -/
inductive PyVal
  | pyStr (s : String)
  | pyBool (b : Bool)
deriving DecidableEq, Repr

/-- Attribute access on a pydantic `CodeReviewRequest` instance: the
model materializes exactly its declared fields; any other name raises
`AttributeError`. -/
def CodeReviewRequest.getattr (r : CodeReviewRequest) (a : String) :
    Except PyErr PyVal :=
  if a = "code" then .ok (.pyStr r.code)
  else if a = "lang" then .ok (.pyStr r.lang)
  else if a = "strict_mode" then .ok (.pyBool r.strict_mode)
  else .error .attributeError

/-- Python truthiness of such a value. -/
def PyVal.truthy : PyVal → Bool
  | .pyStr s => !(s == "")
  | .pyBool b => b

/-- The string payload of a value (total here; only reached on `pyStr`). -/
def PyVal.asStr : PyVal → String
  | .pyStr s => s
  | .pyBool _ => ""

/-- Python `posixpath.dirname`: everything up to the last `/`, with trailing
slashes stripped unless the head is all slashes. -/
def os_path_dirname (p : String) : String :=
  let head := (p.data.reverse.dropWhile (· ≠ '/')).reverse
  if head ≠ [] ∧ head.any (· ≠ '/') then
    String.mk ((head.reverse.dropWhile (· = '/')).reverse)
  else String.mk head

/-- CPython semantics of `s['issues']` for a `str` value `s`: string
indices must be integers, so subscripting with a string key raises
`TypeError` — regardless of the string's content. -/
def strSubscriptStrKey (_s _key : String) : Except PyErr (List PIssue) :=
  .error .typeError

/-- Constant `CODING_STANDARDS` (src/server/utils.py:13-45), the fixed standards
document embedded in every prompt. -/
def CODING_STANDARDS : String :=
  "\n# Airflow Coding Standards\n\n## DAG Structure\n1. **Imports**: Group in this order:\n   - Python standard library\n   - Core Airflow\n   - Other providers\n   - Local modules\n\n2. **Default Arguments**:\n```python\ndefault_args = \x7b\n    \x27owner\x27: \x27team_name\x27,\n    \x27retries\x27: 3,\n    \x27retry_delay\x27: timedelta(minutes=5),\n    \x27sla\x27: timedelta(hours=1)\n\x7d\n```\n\n## Task Naming\n- Use `snake_case`\n- Format: `\x7bmodule\x7d_\x7baction\x7d`  \n  Example: `data_validation_check`\n\n## Error Handling\n- Always set `retries` and `sla`\n- Use `PythonOperator` only with `@task` decorator\n- Log exceptions with context\n\n## Performance\n- Avoid XCom for large data (>10KB)\n- Use `template_searchpath` for common SQL\n- Set `pool` for resource-intensive tasks\n"

/-- Function `build_review_prompt` (src/server/utils.py:62-84): the review prompt
template, rendered with the language and the code under review. -/
def build_review_prompt (code lang : String) : String :=
  "**[Code Review Task]**\nAnalyze the following " ++ lang ++
  " code for issues related to style, performance, and best practices.\nFocus on Airflow standards if relevant.\n\n**[Airflow Coding Standards]**\n" ++
  CODING_STANDARDS ++
  "\n\n**[Code to Review]**\n```" ++ lang ++ "\n" ++ code ++
  "\n```\n\nIdentify issues using the following format:\n- line_start: <line number>\n- line_end: <line number>\n- severity: <\"high\", \"medium\", \"low\">\n- type: <\"standard\", \"performance\", \"security\">\n- description: <detailed explanation of the issue>\n"

/-- The collaborators held in `app.state`: the vector store, the cache
(per-key store behaviour, read through `get_cached`), and the generation
backend (`generator.generate`, which may raise). -/
structure AppState where
  vector_store : VectorStore
  cache : String → StoreBeh
  generator : String → Except PyErr String

/-- The review endpoint's result value. -/
structure ReviewResponse where
  issues : List PIssue
  source : String
deriving DecidableEq, Repr

/-- Endpoint `code_review` (src/server/main.py:222-256), embedded line by line.
The first evaluated expression is the conditional
`os.path.dirname(request.file_path) if request.file_path else None`,
whose condition accesses `request.file_path` — not a field of
`CodeReviewRequest`, hence `AttributeError` before anything else runs.
The remainder of the body is embedded anyway: the semantic-cache loop
over sub-0.3 matches (whose `cached_review['issues']` on a cache hit is a
`TypeError` on the `str` returned by `get_cached`), the `existing_code`
short-circuit, and the generate-and-parse fallback. -/
def code_review (app : AppState) (request : CodeReviewRequest) :
    Except PyErr ReviewResponse := do
  let fp ← request.getattr "file_path"
  let file_filter : Option String :=
    if fp.truthy then some (os_path_dirname fp.asStr) else none
  let similar_code_results ← app.vector_store request.code 3 file_filter
  let relevant_issues ← similar_code_results.foldlM (fun acc doc => do
    if doc.score < (3 : ℚ)/10 then
      let review_prompt := build_review_prompt doc.content request.lang
      let cached_review ← get_cached
        (app.cache (generate_cache_key [review_prompt])) |>.mapError
        (fun _ => PyErr.searchError)
      if cached_review.isSome && !((cached_review.getD "") == "") then do
        let more ← strSubscriptStrKey (cached_review.getD "") "issues"
        pure (acc ++ more)
      else
        pure acc
    else pure acc) ([] : List PIssue)
  if relevant_issues ≠ [] then
    pure ⟨relevant_issues, "existing_code"⟩
  else do
    let result ← app.generator (build_review_prompt request.code request.lang)
    pure ⟨parse_review_result result, "generated"⟩

/-! ## Concrete collaborators used as witnesses -/

/-- A vector store whose `search` always raises. -/
def vsFailing : VectorStore := fun _ _ _ => .error .searchError

/-- A 9000-character document content. -/
def longContent : String := String.mk (List.replicate 9000 'a')

/-- A vector store returning one long document for every query. -/
def vsLongDoc : VectorStore := fun _ _ _ => .ok [⟨longContent, "p.py", 1⟩]

/-! ## Theorems -/

/-- C1.  The claim describes the `/v1/review` semantic-cache short-circuit
and generation fallback; the code as written cannot perform either: the
very first expression evaluated, `os.path.dirname(request.file_path) if
request.file_path else None`, accesses `request.file_path`, which is not
a field of `CodeReviewRequest` (src/server/schemas.py:13-16), so every
review request raises `AttributeError` — for every vector store, cache,
generation backend and request alike.  (Were the schema fixed, the
cache-hit path would still raise `TypeError` at
`cached_review['issues']`, subscripting with a string key the `str` that
`get_cached` returns — see `strSubscriptStrKey`.) -/
theorem code_review_raises_attribute_error
    (app : AppState) (request : CodeReviewRequest) :
    code_review app request = .error .attributeError := rfl

/-- C4.  If the source stream raises after yielding its fragments, the
tee forwards exactly those fragments, performs no cache write for the
key, leaves the store untouched, and reports the failure (the exception
re-raised out of the `for` loop) to the caller. -/
theorem stream_tee_failure_no_cache
    (mem : Nat) (store : CacheMap) (key : String) (frags : List String) :
    cache_stream mem store key ⟨frags, true⟩ =
      ⟨frags, false, [], store⟩ := rfl

/-- C10.  If the source stream completes normally but the joined
accumulation is the empty string, `if full_response:` is falsy, so no
cache write happens at all: the store is exactly what it was, even
though the stream completed without error. -/
theorem stream_tee_empty_join_no_write
    (mem : Nat) (store : CacheMap) (key : String) (frags : List String)
    (h : String.join frags = "") :
    cache_stream mem store key ⟨frags, false⟩ = ⟨frags, true, [], store⟩ := by
  simp [cache_stream, h]

/-- Witness for C10: a stream of one empty fragment completes normally,
yet even with a huge memory margin and an empty store nothing is
written. -/
theorem stream_tee_empty_join_no_write_witness :
    cache_stream (11 * 1024 ^ 3) [] "k" ⟨[""], false⟩ = ⟨[""], true, [], []⟩ :=
  stream_tee_empty_join_no_write (11 * 1024 ^ 3) [] "k" [""] (by decide)

/-- C3 counterexample.  A stream of one empty fragment completes
normally with the memory margin satisfied, yet the cache afterwards does
not contain the concatenation of the fragments under the key (the code
skips the write for a falsy joined response), contradicting the claim's
unqualified "afterwards the cache contains exactly the concatenation of
those fragments under the given key". -/
theorem stream_tee_claim_fails_on_empty_join :
    (cache_stream (11 * 1024 ^ 3) [] "k" ⟨[""], false⟩).completed = true ∧
    CacheMap.lookup (cache_stream (11 * 1024 ^ 3) [] "k" ⟨[""], false⟩).store "k"
      ≠ some (String.join [""]) := by
  constructor
  · decide
  · decide

/-- C3 amended.  For a stream that completes normally, *whose joined
accumulation is non-empty*, with the memory margin satisfied: the caller
receives exactly the source fragments in order, the final store holds
exactly the concatenation under the key, and the write happens exactly
once, after completion (a single `write` event following all forwarded
fragments). -/
theorem stream_tee_caches_nonempty_join
    (mem : Nat) (store : CacheMap) (key : String) (frags : List String)
    (hm : mem > 10 * 1024 ^ 3) (hne : String.join frags ≠ "") :
    cache_stream mem store key ⟨frags, false⟩ =
      ⟨frags, true, [.write key (String.join frags)],
       (key, String.join frags) :: store⟩ ∧
    CacheMap.lookup (cache_stream mem store key ⟨frags, false⟩).store key =
      some (String.join frags) := by
  have hm' : (10737418240 : ℕ) < mem := by norm_num at hm; exact hm
  have h1 : cache_stream mem store key ⟨frags, false⟩ =
      ⟨frags, true, [.write key (String.join frags)],
       (key, String.join frags) :: store⟩ := by
    simp [cache_stream, cache_result, hne, hm']
  refine ⟨h1, ?_⟩
  rw [h1]
  simp [CacheMap.lookup, List.find?]

/-- Witness for C3: the claim's own example — fragments
`["a", "b", "c"]` are forwarded unchanged and the cache holds `"abc"`
under the key, written once. -/
theorem stream_tee_caches_nonempty_join_witness :
    cache_stream (11 * 1024 ^ 3) [] "k" ⟨["a", "b", "c"], false⟩ =
      ⟨["a", "b", "c"], true, [.write "k" "abc"], [("k", "abc")]⟩ ∧
    CacheMap.lookup
      (cache_stream (11 * 1024 ^ 3) [] "k" ⟨["a", "b", "c"], false⟩).store "k" =
      some "abc" := by
  have h := stream_tee_caches_nonempty_join (11 * 1024 ^ 3) [] "k"
    ["a", "b", "c"] (by norm_num) (by decide)
  have hj : String.join ["a", "b", "c"] = "abc" := by decide
  constructor
  · exact h.1.trans (by rw [hj])
  · exact h.2.trans (by rw [hj])

/-- C5 counterexample.  With memory at 50 percent and only `0.05` s
elapsed since last use, `_check_resources` sleeps the full `0.1` s
(`time.sleep(0.1)`), which is not the remainder `0.1 - 0.05` the claim
requires. -/
theorem rate_spacing_claim_fails :
    generateTrace 50 (1/20) =
      .ok [.acquire, .sleep (1/10), .invokeBackend, .release] ∧
    (1 : ℚ)/10 ≠ 1/10 - 1/20 := by
  constructor
  · norm_num [generateTrace, check_resources]
  · norm_num

/-- C5 amended.  When memory is at most 90 percent and the elapsed time
since `last_used` is below `0.1` s, `generate` acquires the lock, sleeps
a fixed `0.1` s — the full minimum spacing, not the remainder — then
invokes the backend and releases: the sleep happens between `acquire`
and `release`, i.e. while the lock is held, and before the backend
call. -/
theorem rate_spacing_fixed_sleep_under_lock
    (memPercent elapsed : ℚ)
    (hm : memPercent ≤ 90) (he : elapsed < 1/10) :
    generateTrace memPercent elapsed =
      .ok [.acquire, .sleep (1/10), .invokeBackend, .release] := by
  have hm' : ¬ memPercent > 90 := not_lt.mpr hm
  unfold generateTrace check_resources
  rw [if_neg hm', if_pos he]
  rfl

/-- Witness for C5: memory at 10 percent, `0.01` s elapsed. -/
theorem rate_spacing_fixed_sleep_under_lock_witness :
    generateTrace 10 (1/100) =
      .ok [.acquire, .sleep (1/10), .invokeBackend, .release] :=
  rate_spacing_fixed_sleep_under_lock 10 (1/100) (by norm_num) (by norm_num)

/-- C6 counterexample.  A store that raises `redis.ConnectionError`
within the 10 ms bound (here after 1 ms) is *not* caught by
`except (redis.TimeoutError, asyncio.TimeoutError)`: the error surfaces
to the caller, contradicting "store unavailability of any kind is never
surfaced to the caller as an error". -/
theorem get_cached_surfaces_connection_error :
    get_cached ⟨1/1000, .error .connection⟩ = .error .connection := by
  norm_num [get_cached]

/-- C6 amended.  A store that does not respond within the 10 ms
(`0.01` s) bound yields a miss rather than a hang; a store-side
`redis.TimeoutError` raised within the bound also yields a miss; an
absent key yields a miss — so timeouts are indistinguishable from
misses.  (Store failures other than timeouts, e.g. connection errors
raised within the bound, do propagate — see the counterexample.) -/
theorem get_cached_timeout_is_miss :
    (∀ b : StoreBeh, (1 : ℚ)/100 ≤ b.latency → get_cached b = .ok none) ∧
    (∀ b : StoreBeh, b.resp = .error .timeout → get_cached b = .ok none) ∧
    (∀ b : StoreBeh, b.resp = .ok none → get_cached b = .ok none) := by
  refine ⟨fun b hb => ?_, fun b hb => ?_, fun b hb => ?_⟩
  · rw [get_cached, if_pos hb]
  · rw [get_cached, hb]
    split <;> rfl
  · rw [get_cached, hb]
    split <;> rfl

/-- Witness for C6: a slow store (5 s) holding a value still reads as a
miss, and a fast store-side timeout reads as a miss. -/
theorem get_cached_timeout_is_miss_witness :
    get_cached ⟨5, .ok (some "v")⟩ = .ok none ∧
    get_cached ⟨1/1000, .error .timeout⟩ = .ok none :=
  ⟨get_cached_timeout_is_miss.1 ⟨5, .ok (some "v")⟩ (by norm_num),
   get_cached_timeout_is_miss.2.1 ⟨1/1000, .error .timeout⟩ rfl⟩

/-- C7 counterexample.  The per-file variant `get_related_code` (used by
`/v1/optimize`) has no `try`: a failing vector-search collaborator makes
it raise instead of returning the empty string the claim requires. -/
theorem get_related_code_propagates_failure :
    get_related_code vsFailing "code" ["a.py"] = .error .searchError ∧
    get_related_code vsFailing "code" ["a.py"] ≠ .ok "" := by
  constructor
  · rfl
  · intro h
    exact Except.noConfusion (rfl.trans h : (Except.error PyErr.searchError : Except PyErr String) = .ok "")

/-- C7 amended.  `get_relevant_context` concatenates match contents with
newline separators, truncates to at most 8000 characters, and returns
the empty string on any collaborator failure.  The per-file variant
`get_related_code` instead joins contents with blank-line (`"\n\n"`)
separators, applies no truncation, and propagates any collaborator
failure to the parent request. -/
theorem context_retrieval_amended :
    (∀ vs prompt, (get_relevant_context vs prompt).length ≤ 8000) ∧
    (∀ vs prompt e, vs prompt 3 none = .error e →
      get_relevant_context vs prompt = "") ∧
    (∀ vs prompt docs, vs prompt 3 none = .ok docs →
      get_relevant_context vs prompt =
        String.mk ((String.intercalate "\n" (docs.map (·.content))).data.take 8000)) ∧
    (∀ vs code f fs e, vs code 1 (some f) = .error e →
      get_related_code vs code (f :: fs) = .error e) ∧
    (∀ vs code f docs, vs code 1 (some f) = .ok docs →
      get_related_code vs code [f] =
        .ok (String.intercalate "\n\n" (docs.map (·.content)))) := by
  refine ⟨fun vs prompt => ?_, fun vs prompt e he => ?_,
    fun vs prompt docs hd => ?_, fun vs code f fs e he => ?_,
    fun vs code f docs hd => ?_⟩
  · cases h : vs prompt 3 none with
    | ok docs =>
      rw [get_relevant_context, h]
      exact List.length_take_le 8000 _
    | error e =>
      rw [get_relevant_context, h]
      show ("" : String).length ≤ 8000
      decide
  · rw [get_relevant_context, he]
  · rw [get_relevant_context, hd]
  · simp only [get_related_code, List.foldlM_cons, he]
    rfl
  · simp only [get_related_code, List.foldlM_cons, List.foldlM_nil, hd]
    rfl

/-- Witness for C7: a failing collaborator degrades
`get_relevant_context` to the empty string, while `get_related_code`
returns a 9000-character result untruncated when its single match has
9000 characters. -/
theorem context_retrieval_amended_witness :
    get_relevant_context vsFailing "p" = "" ∧
    get_related_code vsLongDoc "c" ["f.py"] = .ok longContent ∧
    longContent.length = 9000 := by
  refine ⟨context_retrieval_amended.2.1 vsFailing "p" .searchError rfl, ?_, ?_⟩
  · exact (context_retrieval_amended.2.2.2.2 vsLongDoc "c" "f.py"
      [⟨longContent, "p.py", 1⟩] rfl).trans (by rfl)
  · show (List.replicate 9000 'a').length = 9000
    rw [List.length_replicate]

/-- Helper: one 32-bit word renders as exactly 8 hex characters. -/
theorem wordHexChars_length (x : Nat) : (SHA256.wordHexChars x).length = 8 := by
  simp [SHA256.wordHexChars]

/-- Helper: a digest renders as exactly 64 hex characters. -/
theorem digestHexChars_length (st : SHA256.Hash8) :
    (SHA256.digestHexChars st).length = 64 := by
  simp [SHA256.digestHexChars, wordHexChars_length]

/-- Helper: every nibble renders inside the hex alphabet. -/
theorem nibbleChar_mem (n : Nat) : SHA256.nibbleChar n ∈ SHA256.hexAlphabet := by
  have h : n % 16 < SHA256.hexAlphabet.length := by
    have : n % 16 < 16 := Nat.mod_lt _ (by norm_num)
    simpa [SHA256.hexAlphabet] using this
  rw [SHA256.nibbleChar, List.getD_eq_getElem _ _ h]
  exact List.getElem_mem h

/-- Helper: every character of a word rendering is a hex digit. -/
theorem mem_wordHexChars {c : Char} {x : Nat}
    (h : c ∈ SHA256.wordHexChars x) : c ∈ SHA256.hexAlphabet := by
  rw [SHA256.wordHexChars] at h
  obtain ⟨s, -, hs⟩ := List.mem_map.mp h
  rw [← hs]
  exact nibbleChar_mem _

/-- Helper: every character of a digest rendering is a hex digit. -/
theorem mem_digestHexChars {c : Char} {st : SHA256.Hash8}
    (h : c ∈ SHA256.digestHexChars st) : c ∈ SHA256.hexAlphabet := by
  rw [SHA256.digestHexChars] at h
  rcases List.mem_append.mp h with h | h
  case inr => exact mem_wordHexChars h
  rcases List.mem_append.mp h with h | h
  case inr => exact mem_wordHexChars h
  rcases List.mem_append.mp h with h | h
  case inr => exact mem_wordHexChars h
  rcases List.mem_append.mp h with h | h
  case inr => exact mem_wordHexChars h
  rcases List.mem_append.mp h with h | h
  case inr => exact mem_wordHexChars h
  rcases List.mem_append.mp h with h | h
  case inr => exact mem_wordHexChars h
  rcases List.mem_append.mp h with h | h
  case inr => exact mem_wordHexChars h
  exact mem_wordHexChars h

/-- Helper: every derived key has exactly 32 characters. -/
theorem keyOfString_length (s : String) : (keyOfString s).length = 32 := by
  show ((SHA256.digestHexChars (SHA256.sha256 (SHA256.utf8Bytes s))).take 32).length = 32
  rw [List.length_take, digestHexChars_length]
  decide

/-- Reference test vector (FIPS 180-4 / `hashlib`): the embedded SHA-256
agrees with `hashlib.sha256(b"abc").hexdigest()[:32]`. -/
theorem keyOfString_reference_vector :
    keyOfString "abc" = "ba7816bf8f01cfea414140de5dae2223" := by decide

/-- C9 counterexample.  `generate_cache_key` concatenates its arguments
with no separator, so the two distinct argument sequences
`("aa", "a")` and `("a", "aa")` — one being the other reversed — hash
the very same string `"aaa"` and collide structurally, not by digest
coincidence.  This falsifies both "deriveKey(a,b) != deriveKey(b,a) …
unless inputs are equal" and "no two distinct input sequences collide
except by digest coincidence". -/
theorem generate_cache_key_collides :
    generate_cache_key ["aa", "a"] = generate_cache_key ["a", "aa"] ∧
    ["aa", "a"] ≠ ["a", "aa"] := by
  constructor
  · show keyOfString (String.join ["aa", "a"]) =
      keyOfString (String.join ["a", "aa"])
    rfl
  · decide

/-- C9 amended.  `generate_cache_key` is a pure deterministic function
of the *separator-free concatenation* of its arguments, producing a
fixed-length key of 32 lowercase-hexadecimal characters: any two
argument sequences with equal concatenations (in particular equal
sequences) yield the identical key, so swapping arguments changes the
key only when it changes the concatenation, and two distinct sequences
collide exactly when their concatenations coincide or their digests
coincide. -/
theorem generate_cache_key_props :
    (∀ xs ys : List String, String.join xs = String.join ys →
      generate_cache_key xs = generate_cache_key ys) ∧
    (∀ xs : List String, (generate_cache_key xs).length = 32) ∧
    (∀ xs : List String, ∀ c ∈ (generate_cache_key xs).data,
      c ∈ SHA256.hexAlphabet) := by
  refine ⟨fun xs ys h => ?_, fun xs => keyOfString_length _, fun xs c hc => ?_⟩
  · rw [generate_cache_key, generate_cache_key, h]
  · have hc' : c ∈ (SHA256.digestHexChars
        (SHA256.sha256 (SHA256.utf8Bytes (String.join xs)))).take 32 := hc
    exact mem_digestHexChars (List.mem_of_mem_take hc')

/-- Witness for C9: two sequences with the same concatenation get the
same key, and a concrete key has the advertised length. -/
theorem generate_cache_key_props_witness :
    generate_cache_key ["ab", "c"] = generate_cache_key ["a", "bc"] ∧
    (generate_cache_key ["x"]).length = 32 :=
  ⟨generate_cache_key_props.1 ["ab", "c"] ["a", "bc"] rfl,
   generate_cache_key_props.2.1 ["x"]⟩

/-- Helper: a stripped line that begins `- line_start:` takes the first
branch of the loop body — the previous issue is flushed exactly when it
already has a `line_start` key, the kept-or-fresh dict gets
`line_start := parsed value, defaulting to 0`. -/
theorem processLine_line_start_eq
    (issues : List PIssue) (cur : PIssue) (v raw : List Char)
    (h : pyStripL raw = lineStartLit ++ v) :
    processLine (issues, cur) raw =
      ((if cur.line_start.isSome then issues ++ [cur] else issues),
       { (if cur.line_start.isSome then ({} : PIssue) else cur) with
          line_start :=
            some ((pyIntL (pyStripL (colonSeg1 (lineStartLit ++ v)))).getD 0) }) := by
  have hpre : lineStartLit.isPrefixOf (lineStartLit ++ v) = true :=
    List.isPrefixOf_iff_prefix.mpr (List.prefix_append _ _)
  have hne : (lineStartLit ++ v) ≠ [] := by simp [lineStartLit]
  by_cases hs : cur.line_start.isSome
  · have hnonempty : cur.nonempty = true := by simp [PIssue.nonempty, hs]
    simp [processLine, h, hne, hpre, hnonempty, hs]
  · simp [processLine, h, hne, hpre, hs]

/-- Helper: a stripped line that begins `- line_end:` whose value does
not parse as an integer sets `line_end` to the current issue' s
`line_start` (or 0 when absent), flushing nothing. -/
theorem processLine_line_end_default
    (issues : List PIssue) (cur : PIssue) (v raw : List Char)
    (h : pyStripL raw = lineEndLit ++ v)
    (hint : pyIntL (pyStripL (colonSeg1 (lineEndLit ++ v))) = none) :
    processLine (issues, cur) raw =
      (issues, { cur with line_end := some (cur.line_start.getD 0) }) := by
  have hne : (lineEndLit ++ v) ≠ [] := by simp [lineEndLit]
  have hnp : lineStartLit.isPrefixOf (lineEndLit ++ v) = false := rfl
  have hpre : lineEndLit.isPrefixOf (lineEndLit ++ v) = true :=
    List.isPrefixOf_iff_prefix.mpr (List.prefix_append _ _)
  simp [processLine, h, hne, hnp, hpre, hint]

/-- Helper: everything the parser returns has all five required fields —
incomplete issues are dropped by the final filter. -/
theorem parse_review_complete_only (s : String) :
    ∀ i ∈ parse_review_result s, i.complete = true := by
  intro i hi
  exact (List.mem_filter.mp hi).2

/-- C8 counterexample.  On input where severity, type, description and
line_end lines precede the first `- line_start:` line, the code does
*not* start a new issue at that line (the flush requires the current
dict to already hold `line_start`): the accumulated fields merge with
the incoming `line_start` into one complete issue.  Under the claim' s
always-flush reading (`parse_review_result_claimed`), the fragment would
be flushed incomplete and dropped, leaving no issues.  The two disagree,
so the claim as stated is false of the code. -/
theorem parse_review_merges_across_line_start :
    parse_review_result
        "- severity: high\n- type: security\n- description: d\n- line_end: 7\n- line_start: 3" =
      [{ line_start := some 3, line_end := some 7, severity := some "high",
         type := some "security", description := some "d" }] ∧
    parse_review_result_claimed
        "- severity: high\n- type: security\n- description: d\n- line_end: 7\n- line_start: 3" =
      [] := by
  constructor
  · decide
  · decide

/-- C8 amended.  A `- line_start:` line flushes the previous issue and
starts a new one *only when the issue under construction already has a
`line_start` field; otherwise the fields accumulated so far are kept and
merged with the new `line_start`*.  An unparsable `line_start` value
defaults to 0 and an unparsable `line_end` defaults to the current
issue' s `line_start` (0 when absent); after parsing, every issue
missing any of the five required fields is dropped; and the claim' s
example input parses to exactly one issue with those field values. -/
theorem parse_review_amended :
    (∀ (issues : List PIssue) (cur : PIssue) (v raw : List Char),
      pyStripL raw = lineStartLit ++ v →
      processLine (issues, cur) raw =
        ((if cur.line_start.isSome then issues ++ [cur] else issues),
         { (if cur.line_start.isSome then ({} : PIssue) else cur) with
            line_start :=
              some ((pyIntL (pyStripL (colonSeg1 (lineStartLit ++ v)))).getD 0) })) ∧
    (∀ (issues : List PIssue) (cur : PIssue) (v raw : List Char),
      pyStripL raw = lineEndLit ++ v →
      pyIntL (pyStripL (colonSeg1 (lineEndLit ++ v))) = none →
      processLine (issues, cur) raw =
        (issues, { cur with line_end := some (cur.line_start.getD 0) })) ∧
    (∀ s : String, ∀ i ∈ parse_review_result s, i.complete = true) ∧
    parse_review_result
        "- line_start: 3\n- line_end: 5\n- severity: high\n- type: security\n- description: sql injection" =
      [{ line_start := some 3, line_end := some 5, severity := some "high",
         type := some "security", description := some "sql injection" }] :=
  ⟨processLine_line_start_eq, processLine_line_end_default,
   parse_review_complete_only, by decide⟩

/-- Witness for C8: the loop-body equations applied at concrete lines —
a malformed `- line_start: xx` defaults to 0 (flushing nothing from an
empty dict), a malformed `- line_end: zz` defaults to the current
issue' s absent `line_start`, i.e. 0 — and a concrete complete issue
coming out of the parser. -/
theorem parse_review_amended_witness :
    processLine ([], ({} : PIssue)) "- line_start: xx".data =
      ([], { line_start := some 0 }) ∧
    processLine ([], ({} : PIssue)) "- line_end: zz".data =
      ([], { line_end := some 0 }) ∧
    (({ line_start := some 3, line_end := some 5, severity := some "high",
        type := some "security",
        description := some "sql injection" } : PIssue)).complete = true := by
  refine ⟨?_, ?_, ?_⟩
  · exact (parse_review_amended.1 [] {} " xx".data "- line_start: xx".data
      (by decide)).trans (by decide)
  · exact (parse_review_amended.2.1 [] {} " zz".data "- line_end: zz".data
      (by decide) (by decide)).trans (by decide)
  · exact parse_review_amended.2.2.1
      "- line_start: 3\n- line_end: 5\n- severity: high\n- type: security\n- description: sql injection"
      _ (by
        rw [parse_review_amended.2.2.2]
        decide)

namespace Admission

theorem getElem?_some_lt {l : List TState} {t : Nat} {th : TState}
    (h : l[t]? = some th) : t < l.length := by
  by_contra hc
  rw [List.getElem?_eq_none (Nat.le_of_not_lt hc)] at h
  exact Option.noConfusion h

theorem pc2_owner {s : Sys} (hInv : Inv s) {t : Nat} {th : TState}
    (ht : s.threads[t]? = some th) (h2 : th.pc = 2) : s.lock = some t :=
  hInv t th ht (by omega) (by omega)

/-- If some thread holds pc in 1..3 other than 2, nobody is at pc 2. -/
theorem not_inBackend_of_holder {s : Sys} (hInv : Inv s) {t : Nat} {th : TState}
    (ht : s.threads[t]? = some th) (h1 : 1 ≤ th.pc) (h3 : th.pc ≤ 3)
    (hn2 : th.pc ≠ 2) : ¬ InBackend s := by
  rintro ⟨u, uth, hu, hu2⟩
  have hlocku : s.lock = some u := pc2_owner hInv hu hu2
  have hlockt : s.lock = some t := hInv t th ht h1 h3
  have : u = t := by
    rw [hlocku] at hlockt
    exact (Option.some.injEq _ _ ▸ hlockt).symm ▸ rfl
  subst this
  rw [ht] at hu
  cases hu
  exact hn2 hu2

/-- Changing one thread neither from nor to pc 2 leaves `InBackend`
unchanged, whatever the lock does. -/
theorem inBackend_set_iff {s : Sys} {t : Nat} {th : TState}
    (ht : s.threads[t]? = some th) (x : TState) (lk : Option Nat)
    (hold : th.pc ≠ 2) (hnew : x.pc ≠ 2) :
    InBackend ⟨lk, s.threads.set t x⟩ ↔ InBackend s := by
  constructor
  · rintro ⟨u, uth, hu, hu2⟩
    by_cases hut : u = t
    · subst hut
      rw [List.getElem?_set_eq_of_lt x (getElem?_some_lt ht)] at hu
      cases hu
      exact absurd hu2 hnew
    · rw [List.getElem?_set_ne (fun he => hut he.symm)] at hu
      exact ⟨u, uth, hu, hu2⟩
  · rintro ⟨u, uth, hu, hu2⟩
    by_cases hut : u = t
    · subst hut
      rw [ht] at hu
      cases hu
      exact absurd hu2 hold
    · exact ⟨u, uth, by
        show (s.threads.set t x)[u]? = some uth
        rw [List.getElem?_set_ne (fun he => hut he.symm)]
        exact hu, hu2⟩


/-- One scheduler step preserves the lock invariant, and its emitted
event agrees with the backend-occupancy transition. -/
theorem step_characterization (s : Sys) (t : Nat) (hInv : Inv s) :
    Inv (step s t).1 ∧
    (((step s t).2 = none ∧ (InBackend (step s t).1 ↔ InBackend s)) ∨
     ((step s t).2 = some (.enter t) ∧ ¬ InBackend s ∧ InBackend (step s t).1) ∨
     ((step s t).2 = some (.yieldFrag t) ∧ InBackend s ∧ InBackend (step s t).1) ∨
     ((step s t).2 = some (.leave t) ∧ InBackend s ∧ ¬ InBackend (step s t).1)) := by
  cases ht : (s.threads[t]? : Option TState) with
  | none =>
    have hstep : step s t = (s, none) := by simp [step, ht]
    rw [hstep]
    exact ⟨hInv, Or.inl ⟨rfl, Iff.rfl⟩⟩
  | some th =>
    have hlt : t < s.threads.length := getElem?_some_lt ht
    by_cases hp0 : th.pc = 0
    · cases hl : s.lock with
      | none =>
        have hstep : step s t =
            (⟨some t, s.threads.set t ⟨1, th.fragsLeft⟩⟩, none) := by
          simp [step, ht, hp0, hl]
        rw [hstep]
        constructor
        · intro u uth hu h1 h3
          by_cases hut : u = t
          · subst hut; rfl
          · rw [show (⟨some t, s.threads.set t ⟨1, th.fragsLeft⟩⟩ : Sys).threads
                = s.threads.set t ⟨1, th.fragsLeft⟩ from rfl,
              List.getElem?_set_ne (fun he => hut he.symm)] at hu
            have := hInv u uth hu h1 h3
            rw [hl] at this
            exact Option.noConfusion this
        · exact Or.inl ⟨rfl,
            inBackend_set_iff ht ⟨1, th.fragsLeft⟩ (some t) (by omega) (by simp)⟩
      | some w =>
        have hstep : step s t = (s, none) := by simp [step, ht, hp0, hl]
        rw [hstep]
        exact ⟨hInv, Or.inl ⟨rfl, Iff.rfl⟩⟩
    · by_cases hp1 : th.pc = 1
      · have hstep : step s t =
            (⟨s.lock, s.threads.set t ⟨2, th.fragsLeft⟩⟩, some (.enter t)) := by
          simp [step, ht, hp0, hp1]
        have hlock : s.lock = some t := hInv t th ht (by omega) (by omega)
        rw [hstep]
        refine ⟨?_, Or.inr (Or.inl ⟨rfl, ?_, ?_⟩)⟩
        · intro u uth hu h1 h3
          by_cases hut : u = t
          · subst hut; exact hlock
          · rw [show (⟨s.lock, s.threads.set t ⟨2, th.fragsLeft⟩⟩ : Sys).threads
                = s.threads.set t ⟨2, th.fragsLeft⟩ from rfl,
              List.getElem?_set_ne (fun he => hut he.symm)] at hu
            exact hInv u uth hu h1 h3
        · exact not_inBackend_of_holder hInv ht (by omega) (by omega) (by omega)
        · exact ⟨t, ⟨2, th.fragsLeft⟩, List.getElem?_set_eq_of_lt _ hlt, rfl⟩
      · by_cases hp2 : th.pc = 2
        · have hlock : s.lock = some t := hInv t th ht (by omega) (by omega)
          cases hf : th.fragsLeft with
          | zero =>
            have hstep : step s t =
                (⟨s.lock, s.threads.set t ⟨3, 0⟩⟩, some (.leave t)) := by
              simp [step, ht, hp0, hp1, hp2, hf]
            rw [hstep]
            refine ⟨?_, Or.inr (Or.inr (Or.inr ⟨rfl, ⟨t, th, ht, hp2⟩, ?_⟩))⟩
            · intro u uth hu h1 h3
              by_cases hut : u = t
              · subst hut; exact hlock
              · rw [show (⟨s.lock, s.threads.set t ⟨3, 0⟩⟩ : Sys).threads
                    = s.threads.set t ⟨3, 0⟩ from rfl,
                  List.getElem?_set_ne (fun he => hut he.symm)] at hu
                exact hInv u uth hu h1 h3
            · rintro ⟨u, uth, hu, hu2⟩
              by_cases hut : u = t
              · rw [hut,
                  show (⟨s.lock, s.threads.set t ⟨3, 0⟩⟩ : Sys).threads
                    = s.threads.set t ⟨3, 0⟩ from rfl,
                  List.getElem?_set_eq_of_lt _ hlt] at hu
                cases hu
                exact absurd hu2 (by decide)
              · rw [show (⟨s.lock, s.threads.set t ⟨3, 0⟩⟩ : Sys).threads
                    = s.threads.set t ⟨3, 0⟩ from rfl,
                  List.getElem?_set_ne (fun he => hut he.symm)] at hu
                have h1 : s.lock = some u := pc2_owner hInv hu hu2
                rw [hlock] at h1
                exact hut (Option.some.inj h1).symm
          | succ r =>
            have hstep : step s t =
                (⟨s.lock, s.threads.set t ⟨2, r⟩⟩, some (.yieldFrag t)) := by
              simp [step, ht, hp0, hp1, hp2, hf]
            rw [hstep]
            refine ⟨?_, Or.inr (Or.inr (Or.inl ⟨rfl, ⟨t, th, ht, hp2⟩,
              ⟨t, ⟨2, r⟩, List.getElem?_set_eq_of_lt _ hlt, rfl⟩⟩))⟩
            intro u uth hu h1 h3
            by_cases hut : u = t
            · subst hut; exact hlock
            · rw [show (⟨s.lock, s.threads.set t ⟨2, r⟩⟩ : Sys).threads
                  = s.threads.set t ⟨2, r⟩ from rfl,
                List.getElem?_set_ne (fun he => hut he.symm)] at hu
              exact hInv u uth hu h1 h3
        · by_cases hp3 : th.pc = 3
          · have hlock : s.lock = some t := hInv t th ht (by omega) (by omega)
            have hstep : step s t =
                (⟨none, s.threads.set t ⟨4, th.fragsLeft⟩⟩, none) := by
              simp [step, ht, hp0, hp1, hp2, hp3]
            rw [hstep]
            refine ⟨?_, Or.inl ⟨rfl,
              inBackend_set_iff ht ⟨4, th.fragsLeft⟩ none (by omega) (by simp)⟩⟩
            intro u uth hu h1 h3
            by_cases hut : u = t
            · rw [hut,
                show (⟨none, s.threads.set t ⟨4, th.fragsLeft⟩⟩ : Sys).threads
                  = s.threads.set t ⟨4, th.fragsLeft⟩ from rfl,
                List.getElem?_set_eq_of_lt _ hlt] at hu
              cases hu
              simp at h3
            · rw [show (⟨none, s.threads.set t ⟨4, th.fragsLeft⟩⟩ : Sys).threads
                  = s.threads.set t ⟨4, th.fragsLeft⟩ from rfl,
                List.getElem?_set_ne (fun he => hut he.symm)] at hu
              have := hInv u uth hu h1 h3
              rw [hlock] at this
              exact absurd (Option.some.inj this).symm hut
          · have hstep : step s t = (s, none) := by
              simp [step, ht, hp0, hp1, hp2, hp3]
            rw [hstep]
            exact ⟨hInv, Or.inl ⟨rfl, Iff.rfl⟩⟩

/-- Along any schedule from an invariant-satisfying state, the emitted
event list passes the serialization scan started at the state' s
occupancy flag. -/
theorem chk_run (sched : List Nat) :
    ∀ (s : Sys) (b : Bool), Inv s → (b = true ↔ InBackend s) →
      chk b (run s sched).2 = true := by
  induction sched with
  | nil => intro s b _ _; rfl
  | cons t rest ih =>
    intro s b hInv hb
    obtain ⟨hInv', hcase⟩ := step_characterization s t hInv
    have hrun : (run s (t :: rest)).2 =
        (step s t).2.toList ++ (run (step s t).1 rest).2 := rfl
    rw [hrun]
    rcases hcase with ⟨hev, hiff⟩ | ⟨hev, hnb, hb'⟩ | ⟨hev, hbk, hb'⟩ |
      ⟨hev, hbk, hnb'⟩
    · rw [hev]
      exact ih (step s t).1 b hInv' (hb.trans hiff.symm)
    · rw [hev]
      have hbf : b = false := by
        cases b
        · rfl
        · exact absurd (hb.mp rfl) hnb
      subst hbf
      show (!false && chk true (run (step s t).1 rest).2) = true
      simp only [Bool.not_false, Bool.true_and]
      exact ih (step s t).1 true hInv' ⟨fun _ => hb', fun _ => rfl⟩
    · rw [hev]
      have hbt : b = true := hb.mpr hbk
      subst hbt
      show (true && chk true (run (step s t).1 rest).2) = true
      simp only [Bool.true_and]
      exact ih (step s t).1 true hInv' ⟨fun _ => hb', fun _ => rfl⟩
    · rw [hev]
      have hbt : b = true := hb.mpr hbk
      subst hbt
      show (true && chk false (run (step s t).1 rest).2) = true
      simp only [Bool.true_and]
      exact ih (step s t).1 false hInv' ⟨(fun h => nomatch h), fun hib => absurd hib hnb'⟩

/-- The initial system satisfies the lock invariant: everybody is
waiting. -/
theorem Inv_init (frs : List Nat) : Inv (init frs) := by
  intro t th ht h1 _
  rw [init] at ht
  rw [List.getElem?_map] at ht
  cases hf : frs[t]? with
  | none => rw [hf] at ht; exact Option.noConfusion ht
  | some k =>
    rw [hf] at ht
    cases ht
    simp at h1

/-- Initially nobody is inside the backend. -/
theorem not_inBackend_init (frs : List Nat) : ¬ InBackend (init frs) := by
  rintro ⟨t, th, ht, h2⟩
  rw [init, List.getElem?_map] at ht
  cases hf : frs[t]? with
  | none => rw [hf] at ht; exact Option.noConfusion ht
  | some k =>
    rw [hf] at ht
    cases ht
    simp at h2

end Admission


/-- C2.  Serialization of the Generation Admission Controller: for any
number of concurrent `generate`/`stream` calls (one thread per entry of
`frs`, an entry's value being its count of stream fragments) and any
interleaving `sched`, the emitted backend events pass the busy-scan
`chk false`: every backend entry finds the backend idle — so the backend
invocation of call i+1 starts only after invocation i has ended, with
`stream`'s lock held across its whole fragment session.  And a caller
scheduled while the lock is held simply does not move (it keeps waiting
at pc 0; there is no rejection transition): `step` returns the state
unchanged with no event. -/
theorem admission_serializes :
    (∀ (frs sched : List Nat),
      Admission.chk false (Admission.run (Admission.init frs) sched).2 = true) ∧
    (∀ (s : Admission.Sys) (t : Nat) (th : Admission.TState) (u : Nat),
      s.threads[t]? = some th → th.pc = 0 → s.lock = some u →
      Admission.step s t = (s, none)) := by
  constructor
  · intro frs sched
    exact Admission.chk_run sched (Admission.init frs) false
      (Admission.Inv_init frs)
      ⟨(fun h => nomatch h),
       fun hib => absurd hib (Admission.not_inBackend_init frs)⟩
  · intro s t th u ht hp hl
    simp [Admission.step, ht, hp, hl]

/-- Witness for C2: two concurrent calls — a 2-fragment `stream` and a
plain `generate` — under a concrete interleaving produce a serialized
event trace, and a concrete waiting thread scheduled while thread 0
holds the lock stays exactly where it is. -/
theorem admission_serializes_witness :
    Admission.chk false
      (Admission.run (Admission.init [2, 0])
        [0, 1, 0, 1, 0, 0, 0, 1, 1, 1, 1]).2 = true ∧
    Admission.step ⟨some 0, [⟨2, 0⟩, ⟨0, 0⟩]⟩ 1 =
      (⟨some 0, [⟨2, 0⟩, ⟨0, 0⟩]⟩, none) :=
  ⟨admission_serializes.1 [2, 0] [0, 1, 0, 1, 0, 0, 0, 1, 1, 1, 1],
   admission_serializes.2 ⟨some 0, [⟨2, 0⟩, ⟨0, 0⟩]⟩ 1 ⟨0, 0⟩ 0 rfl rfl rfl⟩
